import Mathlib

/-!
Verification of the training-orchestration engine of
`flight-maneuver-neural-network` (`src/flight_maneuvers/train.py`,
class `NEAT_Trainer`).

The Python source is shallowly embedded: dictionaries become ordered
association lists with CPython insert-or-overwrite update semantics,
fallible code returns `Except`, the filesystem and the distributed
backend (`lightning.Fabric`) are modelled through the narrow contract the
engine consumes (`save path state`, `load path state -> leftover mapping`,
directory listings).  Opaque runtime objects (optimizers, schedulers,
tensors, serialized component states) are represented by tagged values.
-/

set_option autoImplicit false

namespace NEAT

/-! ## Ordered dictionaries (CPython `dict` semantics) -/

/-- Lookup of a key in an ordered association list (first matching entry,
like a Python `dict` lookup on the unique key). -/
def dget {α β : Type} [DecidableEq α] : List (α × β) → α → Option β
  | [], _ => Option.none
  | (k, v) :: rest, key => if k = key then some v else dget rest key

/-- Insert-or-overwrite of one key, keeping the position of an existing key
and appending a fresh key at the end — CPython `d[k] = v` semantics. -/
def dset {α β : Type} [DecidableEq α] : List (α × β) → α → β → List (α × β)
  | [], key, v => [(key, v)]
  | (k, w) :: rest, key, v =>
    if k = key then (k, v) :: rest else (k, w) :: dset rest key v

/-- CPython `d.update(other)`: fold `dset` over the entries of `other`. -/
def dupdate {α β : Type} [DecidableEq α] (d : List (α × β)) (other : List (α × β)) :
    List (α × β) :=
  other.foldl (fun acc p => dset acc p.1 p.2) d

/-- Removal of the first entry with the given key — CPython `d.pop(k)`
(the keys of a Python dict are unique, so first = only). -/
def dremove {α β : Type} [DecidableEq α] : List (α × β) → α → List (α × β)
  | [], _ => []
  | (k, v) :: rest, key => if k = key then rest else (k, v) :: dremove rest key

/-! ## Optimizer/scheduler normalizer (`_parse_optimizers_schedulers`)

The input of `_parse_optimizers_schedulers` is the arbitrary-shaped return
value of `configure_optimizers`: an optimizer object, a scheduler object, a
scheduler-config mapping, or a list/tuple of such values.  `OptimConfig`
is that shape; opaque optimizer and scheduler objects carry a numeric
identity. -/

/-- Values stored in a scheduler-config mapping (`interval`, `frequency`,
`monitor`, `scheduler` entries). -/
inductive CfgVal where
  | schedObj (id : Nat)
  | str (s : String)
  | int (n : Nat)
  | pynone
deriving DecidableEq

/-- Possible shapes of the value returned by `configure_optimizers`. -/
inductive OptimConfig where
  | optimizer (id : Nat)
  | scheduler (id : Nat)
  | mapping (m : List (String × CfgVal))
  | seq (xs : List OptimConfig)

/-- Errors raised while parsing the `configure_optimizers` output. -/
inductive ParseError where
  | typeError (msg : String)
  | notImplementedError (msg : String)
  | indexError
  | keyLookupError
deriving DecidableEq

/-- Python `isinstance(x, Optimizable)` on our value universe: only the
opaque optimizer objects satisfy the `Optimizable` protocol. -/
def isOptimizerV : OptimConfig → Bool
  | .optimizer _ => true
  | _ => false

/-- Python `isinstance(x, (LRScheduler, Mapping))`. -/
def isSchedOrMappingV : OptimConfig → Bool
  | .scheduler _ => true
  | .mapping _ => true
  | _ => false

/-- Python subscript `x[i]` with an integer index: lists index into their
elements, a string-keyed dict raises `KeyError` for an integer key, and
optimizer / scheduler objects are not subscriptable (`TypeError`). -/
def getitem : OptimConfig → Nat → Except ParseError OptimConfig
  | .seq xs, i =>
    match xs.get? i with
    | some y => .ok y
    | Option.none => .error .indexError
  | .mapping _, _ => .error .keyLookupError
  | .optimizer _, _ => .error (.typeError "object is not subscriptable")
  | .scheduler _, _ => .error (.typeError "object is not subscriptable")

/-- The defaults dict `_lr_sched_defaults` of `_parse_optimizers_schedulers`. -/
def lrSchedDefaults : List (String × CfgVal) :=
  [("interval", .str "epoch"), ("frequency", .int 1), ("monitor", .str "val_loss")]

/-- Embedding of `NEAT_Trainer._parse_optimizers_schedulers`.  The first
component of a successful result is the returned optimizer expression (an
arbitrary object in Python, hence `Option OptimConfig`), the second the
returned scheduler-config mapping.

Source remarks mirrored here:
* single scheduler branch: the Python source returns
  `None, _lr_sched_defaults.update(scheduler=...)`, and CPython
  `dict.update` mutates in place and returns `None`, so the branch
  evaluates to `(None, None)`;
* single-optimizer-in-list branch: the source returns
  `configure_optim_output[0][0], None`, i.e. it subscripts the optimizer
  object itself, which raises `TypeError` for a non-subscriptable
  optimizer;
* `all(...)` over an empty list is `True`, so an empty sequence takes the
  all-optimizers branch and raises `NotImplementedError`. -/
def parseOptSched : OptimConfig → Except ParseError (Option OptimConfig × Option (List (String × CfgVal)))
  | .optimizer i => .ok (some (.optimizer i), Option.none)
  | .scheduler _ => .ok (Option.none, Option.none)
  | .mapping m => .ok (Option.none, some (dupdate lrSchedDefaults m))
  | .seq xs =>
    if xs.all isOptimizerV then
      match xs with
      | [x] =>
        match getitem x 0 with
        | .error e => .error e
        | .ok y => .ok (some y, Option.none)
      | _ => .error (.notImplementedError "BYOT only supports a single optimizer")
    else if xs.all isSchedOrMappingV then
      match xs with
      | [x] =>
        match parseOptSched x with
        | .error e => .error e
        | .ok p => .ok (Option.none, p.2)
      | _ => .ok (Option.none, Option.none)
    else
      match xs with
      | [a, b] =>
        match parseOptSched a with
        | .error e => .error e
        | .ok pa =>
          match parseOptSched b with
          | .error e => .error e
          | .ok pb => .ok (pa.1, pb.2)
      | _ => .ok (Option.none, Option.none)

/-! ## Scheduler stepping policy (`step_scheduler`)

`step_scheduler` consults the trainer fields `_current_train_return` and
`_current_val_return`: each is a tensor, a mapping from metric name to
value, or `None` (a `validation_step` may return nothing).  Metric values
are never inspected by the engine, so they are a type parameter `V`. -/

/-- A train/validation output record: a bare scalar tensor, a mapping
from metric name to value, or Python `None`. -/
inductive PyOut (V : Type) where
  | tensor (x : V)
  | mapping (m : List (String × V))
  | pynone

/-- The scheduler configuration consumed by `step_scheduler`, whose code
reads exactly the keys `scheduler`, `interval`, `frequency`, `monitor` of
the config mapping; the opaque schedule object is its numeric identity. -/
structure SchedCfg where
  scheduler : Nat
  interval : String
  frequency : Nat
  monitor : Option String

/-- Errors raised inside `step_scheduler`. -/
inductive SchedErr where
  | updateTypeError
  | monitorKeyError (monitor : Option String) (possible : List (Option String))
deriving DecidableEq

/-- Outcome of one `step_scheduler` call: no-op, exactly one invocation of
`model.lr_scheduler_step(scheduler, monitor)` (constructor `stepped`), or
an exception. -/
inductive SchedStepResult (V : Type) where
  | noop
  | stepped (schedId : Nat) (monitorVal : Option V)
  | failed (e : SchedErr)

/-- One branch of the `possible_monitor_vals` assembly.  For a tensor
output the source calls `possible_monitor_vals.update("train_loss", ...)`
with two positional arguments, which raises `TypeError` in CPython
(`dict.update` accepts at most one positional argument); for a mapping it
merges the prefixed entries; for `None` neither `isinstance` test fires
and the mapping is left unchanged. -/
def updateMonitorVals {V : Type} (pmv : List (Option String × Option V))
    (pfx : String) (out : PyOut V) :
    Except SchedErr (List (Option String × Option V)) :=
  match out with
  | .tensor _ => .error .updateTypeError
  | .mapping m => .ok (dupdate pmv (m.map fun p => (some (pfx ++ p.1), some p.2)))
  | .pynone => .ok pmv

/-- The `possible_monitor_vals` dict of `step_scheduler`: `{None: None}`
updated with the `train_`-prefixed entries of the last training output and
then the `val_`-prefixed entries of the last validation output. -/
def buildMonitorVals {V : Type} (trainRet valRet : PyOut V) :
    Except SchedErr (List (Option String × Option V)) :=
  match updateMonitorVals [(Option.none, Option.none)] "train_" trainRet with
  | .error e => .error e
  | .ok pmv => updateMonitorVals pmv "val_" valRet

/-- Observer distinguishing the "schedule advanced" outcome. -/
def SchedStepResult.isStepped {V : Type} : SchedStepResult V → Bool
  | .stepped _ _ => true
  | _ => false

/-- Embedding of `NEAT_Trainer.step_scheduler`: short-circuit no-ops for an
absent config, a mismatched interval, and a frequency miss; then monitor
resolution over `possible_monitor_vals` (a failed lookup raises `KeyError`
naming the possible keys), and finally a single
`model.lr_scheduler_step(scheduler, monitor)` invocation. -/
def step_scheduler {V : Type} (schedulerCfg : Option SchedCfg) (level : String)
    (currentValue : Nat) (trainRet valRet : PyOut V) : SchedStepResult V :=
  match schedulerCfg with
  | Option.none => .noop
  | some cfg =>
    if cfg.interval ≠ level then .noop
    else if currentValue % cfg.frequency ≠ 0 then .noop
    else
      match buildMonitorVals trainRet valRet with
      | .error e => .failed e
      | .ok pmv =>
        match dget pmv cfg.monitor with
        | Option.none => .failed (.monitorKeyError cfg.monitor (pmv.map Prod.fst))
        | some v => .stepped cfg.scheduler v

/-! ## Training loop driver (`train_loop`)

One epoch over a finite batch source.  Callback hooks (`fabric.call`) do
not touch the engine counters and are no-ops on this state; the
step-level `step_scheduler` call reads but never writes the counters.
`optim_steps` is a ghost counter recording the number of
`optimizer.step` invocations. -/

/-- The engine counters `train_loop` reads and writes, plus the ghost
count of optimizer steps performed. -/
structure LoopState where
  global_step : Nat
  should_stop : Bool
  optim_steps : Nat
deriving DecidableEq

/-- Trainer hyperparameters consulted by `train_loop`:
`grad_accum_steps` and `max_steps` (`Option.none` models `None`). -/
structure TrainHp where
  grad_accum_steps : Nat
  max_steps : Option Nat

/-- The body of one `train_loop` iteration at batch index `batchIdx`:
decide `should_optim_step = global_step % grad_accum_steps == 0`; if so,
run `optimizer.step` with the training-step closure and zero the
gradients, else only accumulate; then increment `global_step` by one
exactly when the optimizer stepped; finally evaluate the stop condition
`should_stop or batch_idx + 1 >= limit_batches or (max_steps is set and
global_step >= max_steps)`, which sets the stop flag and breaks.  The
returned Bool is the break signal. -/
def trainBatch (hp : TrainHp) (limitBatches : Option Nat) (batchIdx : Nat)
    (s : LoopState) : LoopState × Bool :=
  let shouldOptimStep := s.global_step % hp.grad_accum_steps == 0
  let s1 : LoopState :=
    { s with optim_steps := s.optim_steps + (if shouldOptimStep then 1 else 0) }
  let s2 : LoopState :=
    { s1 with global_step := s1.global_step + (if shouldOptimStep then 1 else 0) }
  if s2.should_stop
      || (match limitBatches with
          | some l => batchIdx + 1 ≥ l
          | Option.none => false)
      || (match hp.max_steps with
          | some m => s2.global_step ≥ m
          | Option.none => false) then
    ({ s2 with should_stop := true }, true)
  else
    (s2, false)

/-- The batch loop of `train_loop`, starting at batch index `batchIdx`
with `remaining` batches left in the source. -/
def trainLoopFrom (hp : TrainHp) (limitBatches : Option Nat) :
    Nat → Nat → LoopState → LoopState
  | 0, _, s => s
  | remaining + 1, batchIdx, s =>
    match trainBatch hp limitBatches batchIdx s with
    | (s2, true) => s2
    | (s2, false) => trainLoopFrom hp limitBatches remaining (batchIdx + 1) s2

/-- Embedding of `NEAT_Trainer.train_loop` on a batch source of
`nBatches` batches; `limitBatches = Option.none` models the default
`limit_batches = float(inf)`. -/
def train_loop (hp : TrainHp) (nBatches : Nat) (limitBatches : Option Nat)
    (s : LoopState) : LoopState :=
  trainLoopFrom hp limitBatches nBatches 0 s

/-! ## Validation loop driver (`val_loop`)

The claim under study concerns the global autograd flag
(`torch.set_grad_enabled`), so the embedding tracks that flag and the
exit path taken; batch computation and callback hooks do not affect it. -/

/-- Exit paths of `val_loop`. -/
inductive ValExit where
  | noLoader
  | noValidationStep
  | earlyReturn
  | completed
deriving DecidableEq

/-- The batch loop of `val_loop`: at the top of each iteration the stop
flag and batch limit are checked, and on either one the loop fires
`on_validation_epoch_end` and returns — without touching the autograd
flag, which stays `false`.  After a completed loop the source calls
`torch.set_grad_enabled(True)`. -/
def valLoopFrom (shouldStop : Bool) (limitBatches : Option Nat) :
    Nat → Nat → Bool × ValExit
  | 0, _ => (true, .completed)
  | remaining + 1, batchIdx =>
    if shouldStop
        || (match limitBatches with
            | some l => batchIdx ≥ l
            | Option.none => false) then
      (false, .earlyReturn)
    else
      valLoopFrom shouldStop limitBatches remaining (batchIdx + 1)

/-- Embedding of `NEAT_Trainer.val_loop`, returning the final state of the
global autograd flag together with the exit path.  `hasLoader` models
`val_loader is not None`, `overridden` models
`is_overridden("validation_step", model)`, and `grad0` is the autograd
flag on entry (returned unchanged on the two pre-loop returns, which
happen before `torch.set_grad_enabled(False)`). -/
def val_loop (hasLoader overridden shouldStop : Bool) (limitBatches : Option Nat)
    (nBatches : Nat) (grad0 : Bool) : Bool × ValExit :=
  if !hasLoader then (grad0, .noLoader)
  else if !overridden then (grad0, .noValidationStep)
  else valLoopFrom shouldStop limitBatches nBatches 0

/-! ## Checkpoint manager (`save`, `load`, `get_latest_checkpoint`)

Python string comparison is lexicographic on Unicode code points; the
builtin `sorted` sorts ascending under it, so `sorted(items)[-1]` is the
maximum.  `pyStrLe` embeds that comparison. -/

/-- Lexicographic comparison of two character lists by code point. -/
def charsLe : List Char → List Char → Bool
  | [], _ => true
  | _ :: _, [] => false
  | a :: as, b :: bs =>
    if a.toNat < b.toNat then true
    else if b.toNat < a.toNat then false
    else charsLe as bs

/-- Python string comparison `s <= t` (code-point lexicographic). -/
def pyStrLe (s t : String) : Bool := charsLe s.data t.data

/-- Propositional form of `pyStrLe`, used as the sorting relation. -/
def pyStrLeP (s t : String) : Prop := pyStrLe s t = true

instance : DecidableRel pyStrLeP :=
  fun s t => inferInstanceAs (Decidable (pyStrLe s t = true))

/-- A serialized value inside a checkpoint record: an opaque component
state (model, optimizer or scheduler state) or an integer counter. -/
inductive CkptVal where
  | obj (id : Nat)
  | num (n : Nat)
deriving DecidableEq

/-- A checkpoint record / state mapping: logical component name to value. -/
abbrev Record := List (String × CkptVal)

/-- The filesystem as the engine observes it: directory listings
(`os.path.isdir` / `os.listdir`) and checkpoint file contents keyed by
path (written by `fabric.save`, read by `fabric.load`). -/
structure FS where
  dirs : List (String × List String)
  files : List (String × Record)

/-- Python `os.path.join(dir, fname)` for a relative file name. -/
def joinPath (dir fname : String) : String := dir ++ "/" ++ fname

/-- Embedding of the static method `NEAT_Trainer.get_latest_checkpoint`:
`None` when the directory is absent (`os.path.isdir` fails) or its listing
is empty, otherwise `os.path.join(checkpoint_dir, sorted(items)[-1])`. -/
def get_latest_checkpoint (fs : FS) (checkpointDir : String) : Option String :=
  match dget fs.dirs checkpointDir with
  | Option.none => Option.none
  | some items =>
    match (List.insertionSort pyStrLeP items).getLast? with
    | Option.none => Option.none
    | some last => some (joinPath checkpointDir last)

/-- The engine state and configuration fields of `NEAT_Trainer` involved
in checkpointing and the fit state machine. -/
structure TrainerS where
  global_step : Nat
  current_epoch : Nat
  should_stop : Bool
  checkpoint_dir : String
  max_epochs : Option Nat
deriving DecidableEq

/-- Zero-padding of the epoch number, Python format `{epoch:04d}`. -/
def pad4 (n : Nat) : String :=
  let s := toString n
  String.mk (List.replicate (4 - s.length) (Char.ofNat 48)) ++ s

/-- The checkpoint file name `epoch-{current_epoch:04d}.ckpt`. -/
def ckptFileName (epoch : Nat) : String := "epoch-" ++ pad4 epoch ++ ".ckpt"

/-- Backend contract `fabric.save(path, state)`: persist the record at the
path and make the file name appear in its directory's listing. -/
def fabricSave (fs : FS) (dir fname : String) (rec : Record) : FS :=
  let entries := (dget fs.dirs dir).getD []
  { dirs := dset fs.dirs dir (if entries.contains fname then entries else entries ++ [fname]),
    files := dset fs.files (joinPath dir fname) rec }

/-- Embedding of `NEAT_Trainer.save`: augment the caller's state mapping
in place with `global_step` and `current_epoch` (keyword-argument
`dict.update`, i.e. insert-or-overwrite), then persist it under the
epoch-encoded file name inside `checkpoint_dir`.  The returned record is
the caller's mapping after the in-place mutation. -/
def trainerSave (tr : TrainerS) (fs : FS) (state : Option Record) : Record × FS :=
  let st := state.getD []
  let st := dset st "global_step" (.num tr.global_step)
  let st := dset st "current_epoch" (.num tr.current_epoch)
  (st, fabricSave fs tr.checkpoint_dir (ckptFileName tr.current_epoch) st)

/-- Errors surfaced by `NEAT_Trainer.load`. -/
inductive LoadError where
  | fileNotFound (path : String)
  | missingKey (k : String)
  | unusedValues (leftover : Record)
  | nonIntCounter
deriving DecidableEq

/-- Backend contract `fabric.load(path, state) -> leftover mapping`:
restore every component of `state` whose key the persisted record holds,
and return the record entries whose keys `state` does not hold. -/
def fabricLoad (fs : FS) (path : String) (state : Record) :
    Option (Record × Record) :=
  match dget fs.files path with
  | Option.none => Option.none
  | some rec =>
    some (state.map (fun p => (p.1, (dget rec p.1).getD p.2)),
          rec.filter (fun p => (dget state p.1).isNone))

/-- Embedding of `NEAT_Trainer.load`: `fabric.load` into the state
mapping, `remainder.pop("global_step")` and `remainder.pop("current_epoch")`
into the trainer counters (a missing key is a `KeyError`), and a fatal
`RuntimeError` (`Unused Checkpoint Values`) when the remainder is
non-empty afterwards.  The persisted counters written by `save` are
always `CkptVal.num`; a non-numeric value at either counter key leaves
our typed counters undefined and is reported as `nonIntCounter` (a path
no record written by `save` can reach). -/
def trainerLoad (tr : TrainerS) (fs : FS) (state : Option Record) (path : String) :
    Except LoadError (TrainerS × Record) :=
  let st := state.getD []
  match fabricLoad fs path st with
  | Option.none => .error (.fileNotFound path)
  | some (restored, remainder) =>
    match dget remainder "global_step" with
    | Option.none => .error (.missingKey "global_step")
    | some gsv =>
      let rem1 := dremove remainder "global_step"
      match dget rem1 "current_epoch" with
      | Option.none => .error (.missingKey "current_epoch")
      | some cev =>
        let rem2 := dremove rem1 "current_epoch"
        match gsv, cev with
        | .num gs, .num ce =>
          if rem2.isEmpty then
            .ok ({ tr with global_step := gs, current_epoch := ce }, restored)
          else .error (.unusedValues rem2)
        | _, _ => .error .nonIntCounter

/-! ## Trainer fit state machine (`fit`)

The resume phase and the epoch loop of `NEAT_Trainer.fit`.  The model,
optimizer and dataloaders are external collaborators; the scheduler
config of this composition is `Option.none` (the step-level and
epoch-level `step_scheduler` calls are then no-ops, see
`step_scheduler`).  `fuel` bounds the number of loop iterations the
recursion may unfold; any fuel at least `max_epochs` is enough to reach
the loop's own exit. -/

/-- Parameters of one `fit` call that stay fixed across epochs. -/
structure FitParams where
  grad_accum_steps : Nat
  max_steps : Option Nat
  validation_frequency : Nat
  hasValLoader : Bool
  validationStepOverridden : Bool
  nTrainBatches : Nat
  nValBatches : Nat

/-- Observable outcome of a `fit` call: final trainer, filesystem, the
caller's state mapping after the in-place save mutations, the global
autograd flag, and the ghost count of completed training epochs. -/
structure FitResult where
  tr : TrainerS
  fs : FS
  state : Record
  grad_enabled : Bool
  epochs_run : Nat

/-- One iteration of the `while not self.should_stop` body of `fit`:
`train_loop`, conditional `val_loop` (the property `should_validate` is
`current_epoch % validation_frequency == 0`), the epoch-level
`step_scheduler` no-op, `current_epoch += 1`, the `max_epochs` stop
check, and `save`. -/
def fitEpoch (p : FitParams) (tr : TrainerS) (fs : FS) (state : Record)
    (grad : Bool) : TrainerS × FS × Record × Bool :=
  let ls := train_loop ⟨p.grad_accum_steps, p.max_steps⟩ p.nTrainBatches
    Option.none ⟨tr.global_step, tr.should_stop, 0⟩
  let tr1 : TrainerS := { tr with global_step := ls.global_step, should_stop := ls.should_stop }
  let grad1 :=
    if tr1.current_epoch % p.validation_frequency == 0 then
      (val_loop p.hasValLoader p.validationStepOverridden tr1.should_stop
        Option.none p.nValBatches grad).1
    else grad
  let tr2 : TrainerS := { tr1 with current_epoch := tr1.current_epoch + 1 }
  let tr3 : TrainerS :=
    match tr2.max_epochs with
    | some m => if tr2.current_epoch ≥ m then { tr2 with should_stop := true } else tr2
    | Option.none => tr2
  let (state1, fs1) := trainerSave tr3 fs (some state)
  (tr3, fs1, state1, grad1)

/-- The `while not self.should_stop` loop of `fit`, with an explicit
iteration bound and a ghost count of completed epochs. -/
def fitLoop (p : FitParams) : Nat → TrainerS → FS → Record → Bool → Nat → FitResult
  | 0, tr, fs, state, grad, epochsRun =>
    ⟨{ tr with should_stop := false }, fs, state, grad, epochsRun⟩
  | fuel + 1, tr, fs, state, grad, epochsRun =>
    if tr.should_stop then
      ⟨{ tr with should_stop := false }, fs, state, grad, epochsRun⟩
    else
      match fitEpoch p tr fs state grad with
      | (tr1, fs1, state1, grad1) =>
        fitLoop p fuel tr1 fs1 state1 grad1 (epochsRun + 1)

/-- Embedding of `NEAT_Trainer.fit` from the point where the state
mapping `{"model", "optim", "scheduler"}` (parameter `comps`) has been
assembled: the resume phase — when `ckpt_path` is supplied and is a
directory, look up the latest checkpoint in `self.checkpoint_dir` (the
source consults `self.checkpoint_dir` there, not `ckpt_path`), load it if
present, and set the stop flag when the restored `current_epoch` reaches
`max_epochs` — followed by the epoch loop. -/
def fit (p : FitParams) (fuel : Nat) (tr0 : TrainerS) (fs0 : FS) (comps : Record)
    (ckptPath : Option String) (grad0 : Bool) : Except LoadError FitResult :=
  let resume : Except LoadError (TrainerS × Record) :=
    match ckptPath with
    | Option.none => .ok (tr0, comps)
    | some path =>
      if (dget fs0.dirs path).isSome then
        match get_latest_checkpoint fs0 tr0.checkpoint_dir with
        | Option.none => .ok (tr0, comps)
        | some latest =>
          match trainerLoad tr0 fs0 (some comps) latest with
          | .error e => .error e
          | .ok (tr1, restored) =>
            match tr1.max_epochs with
            | some m =>
              if tr1.current_epoch ≥ m then
                .ok ({ tr1 with should_stop := true }, restored)
              else .ok (tr1, restored)
            | Option.none => .ok (tr1, restored)
      else .ok (tr0, comps)
  match resume with
  | .error e => .error e
  | .ok (tr1, state1) => .ok (fitLoop p fuel tr1 fs0 state1 grad0 0)

/-! ## Concrete fixtures for the resume scenario

A checkpoint directory "a" holding one checkpoint whose record restores
`global_step = 7` and `current_epoch = 5`, and two trainers differing
only in their configured `checkpoint_dir` ("b" vs. "a"). -/

/-- The fit state mapping `{"model", "optim", "scheduler"}`. -/
def compsResume : Record :=
  [("model", .obj 1), ("optim", .obj 2), ("scheduler", .obj 3)]

/-- Filesystem holding one checkpoint inside directory "a". -/
def fsResume : FS :=
  ⟨[("a", ["epoch-0005.ckpt"])],
   [("a/epoch-0005.ckpt",
     compsResume ++ [("global_step", .num 7), ("current_epoch", .num 5)])]⟩

/-- Fit parameters for the resume scenario: accumulation factor 1, one
training batch, no validation loader. -/
def fitParamsResume : FitParams := ⟨1, Option.none, 1, false, false, 1, 0⟩

/-- Fresh trainer whose configured `checkpoint_dir` is "b". -/
def trainerDirB : TrainerS := ⟨0, 0, false, "b", some 1⟩

/-- Fresh trainer whose configured `checkpoint_dir` is "a". -/
def trainerDirA : TrainerS := ⟨0, 0, false, "a", some 1⟩

end NEAT

namespace NEAT

/-! ## Claims C2 and C5 -/

/-- Claim C2: the spec states that a single scheduler object is normalized
to the pair (no optimizer, default config containing that scheduler with
interval "epoch", frequency 1, monitor "val_loss").  The code instead
returns the value of `dict.update`, which is `None`: the normalizer yields
`(None, None)` for every single scheduler object, discarding the
constructed config. -/
theorem parse_single_scheduler_returns_none :
    ∀ i : Nat, parseOptSched (.scheduler i) = .ok (Option.none, Option.none) :=
  fun _ => rfl

/-- Claim C5: for a one-element list holding a single optimizer, the spec
states the normalizer returns that optimizer; the code evaluates
`configure_optim_output[0][0]`, subscripting the optimizer object, which
raises `TypeError`.  For a list of two or more optimizers it raises
`NotImplementedError` about multiple optimizers, as specified. -/
theorem parse_optimizer_list_subscript_error :
    ∀ i j : Nat,
      parseOptSched (.seq [.optimizer i]) =
        .error (.typeError "object is not subscriptable") ∧
      parseOptSched (.seq [.optimizer i, .optimizer j]) =
        .error (.notImplementedError "BYOT only supports a single optimizer") :=
  fun _ _ => ⟨rfl, rfl⟩

/-! ## Claims C3 and C6 -/

/-- Claim C3: monitor resolution of `step_scheduler`.  With the last
training output being the mapping from "loss" to one half and no
validation output (the `_current_val_return` initial value, an empty
mapping), `monitor="train_loss"` resolves to one half and the schedule is
advanced with it, while `monitor="val_loss"` raises the fatal `KeyError`
listing the valid keys `None` and "train_loss".  With a bare scalar
training output, however, the source calls `dict.update` with two
positional arguments, which raises `TypeError` instead of building the
documented mapping from "train_loss" to the scalar. -/
theorem step_scheduler_monitor_resolution_eval :
    step_scheduler (V := ℚ) (some ⟨7, "epoch", 1, some "train_loss"⟩) "epoch" 2
        (.mapping [("loss", 1/2)]) (.mapping []) = .stepped 7 (some (1/2)) ∧
    step_scheduler (V := ℚ) (some ⟨7, "epoch", 1, some "val_loss"⟩) "epoch" 2
        (.mapping [("loss", 1/2)]) (.mapping []) =
      .failed (.monitorKeyError (some "val_loss") [Option.none, some "train_loss"]) ∧
    step_scheduler (V := ℚ) (some ⟨7, "epoch", 1, some "train_loss"⟩) "epoch" 2
        (.tensor (1/2)) (.mapping []) = .failed .updateTypeError :=
  ⟨rfl, rfl, rfl⟩

/-- Claim C6 counterexample: a call where the scheduler config is present,
its interval "epoch" equals the calling level, and the current value 4 is
divisible by the frequency 1 — so none of the three no-op conditions
hold — yet the schedule object is not advanced: monitor resolution fails
and the call raises the `KeyError` instead. -/
theorem step_scheduler_guard_pass_but_not_stepped :
    step_scheduler (V := ℚ) (some ⟨3, "epoch", 1, some "bogus"⟩) "epoch" 4
        (.mapping []) (.mapping []) =
      .failed (.monitorKeyError (some "bogus") [Option.none]) ∧
    (step_scheduler (V := ℚ) (some ⟨3, "epoch", 1, some "bogus"⟩) "epoch" 4
        (.mapping []) (.mapping [])).isStepped = false :=
  ⟨rfl, rfl⟩

/-- Claim C6 as amended: the call is a no-op when the config is absent,
when the interval differs from the calling level, or when the current
value is not divisible by the frequency; when none of these hold and the
monitor resolves in `possible_monitor_vals`, the schedule object is
advanced exactly once with the resolved value, and when the monitor does
not resolve the call raises the fatal `KeyError` naming the possible keys
instead of advancing the schedule. -/
theorem step_scheduler_amended (V : Type) (cfg : SchedCfg) (level : String)
    (cv : Nat) (tr vr : PyOut V) :
    step_scheduler (V := V) Option.none level cv tr vr = .noop
    ∧ (cfg.interval ≠ level → step_scheduler (some cfg) level cv tr vr = .noop)
    ∧ (cv % cfg.frequency ≠ 0 → step_scheduler (some cfg) level cv tr vr = .noop)
    ∧ (cfg.interval = level → cv % cfg.frequency = 0 →
        ∀ pmv, buildMonitorVals tr vr = .ok pmv →
          (∀ v, dget pmv cfg.monitor = some v →
            step_scheduler (some cfg) level cv tr vr = .stepped cfg.scheduler v)
          ∧ (dget pmv cfg.monitor = Option.none →
            step_scheduler (some cfg) level cv tr vr =
              .failed (.monitorKeyError cfg.monitor (pmv.map Prod.fst)))) := by
  refine ⟨rfl, ?_, ?_, ?_⟩
  · intro h
    simp [step_scheduler, h]
  · intro h
    by_cases hi : cfg.interval = level
    · simp [step_scheduler, hi, h]
    · simp [step_scheduler, hi]
  · intro hi hf pmv hpmv
    constructor
    · intro v hv
      simp [step_scheduler, hi, hf, hpmv, hv]
    · intro hv
      simp [step_scheduler, hi, hf, hpmv, hv]

/-! ## Claims C1 and C4 -/

/-- Claim C1: the step trigger `global_step % grad_accum_steps == 0` is
evaluated before the increment, and `global_step` is incremented exactly
when the optimizer steps — but because `global_step` advances only on a
step, after the first optimizer step `global_step % A` stays at 1 forever
for `A = 2`, so an epoch of 4 batches from a fresh trainer performs 1
optimizer step, not `4 / 2 = 2` as the claim states (with `A = 1` the
claimed count `4 / 1 = 4` does hold). -/
theorem train_loop_accumulation_stalls :
    (train_loop ⟨1, Option.none⟩ 4 Option.none ⟨0, false, 0⟩).optim_steps = 4 ∧
    (train_loop ⟨1, Option.none⟩ 4 Option.none ⟨0, false, 0⟩).global_step = 4 ∧
    (train_loop ⟨2, Option.none⟩ 4 Option.none ⟨0, false, 0⟩).optim_steps = 1 ∧
    (train_loop ⟨2, Option.none⟩ 4 Option.none ⟨0, false, 0⟩).global_step = 1 ∧
    (4 : Nat) / 2 = 2 := by
  decide

/-- Claim C4: on normal completion `val_loop` re-enables gradient
tracking, but on both early-return paths — the stop flag set, and the
batch limit reached — it returns with the autograd flag still `false`,
so gradient tracking is not re-enabled on every exit path. -/
theorem val_loop_early_return_leaves_grad_disabled :
    val_loop true true false Option.none 2 true = (true, .completed) ∧
    val_loop true true true Option.none 2 true = (false, .earlyReturn) ∧
    val_loop true true false (some 0) 1 true = (false, .earlyReturn) := by
  decide

/-- Claim C6 amended-theorem witness: a concrete call on which all guards
pass and the monitor "train_loss" resolves, advancing schedule 3 once. -/
theorem step_scheduler_amended_witness :
    step_scheduler (V := ℚ) (some ⟨3, "epoch", 1, some "train_loss"⟩) "epoch" 0
        (.mapping [("loss", 1/2)]) .pynone = .stepped 3 (some (1/2)) :=
  ((step_scheduler_amended ℚ ⟨3, "epoch", 1, some "train_loss"⟩ "epoch" 0
      (.mapping [("loss", 1/2)]) .pynone).2.2.2 rfl rfl
      [(Option.none, Option.none), (some "train_loss", some (1/2))] rfl).1
    (some (1/2)) rfl

/-! ## Dictionary lemmas -/

section DictLemmas

variable {α β : Type} [DecidableEq α]

lemma dget_dset_self (d : List (α × β)) (k : α) (v : β) :
    dget (dset d k v) k = some v := by
  induction d with
  | nil => simp [dget, dset]
  | cons p rest ih =>
    by_cases h : p.1 = k
    · simp [dget, dset, h]
    · simp [dget, dset, h, ih]

lemma dget_dset_ne (d : List (α × β)) (k k2 : α) (v : β) (hne : k ≠ k2) :
    dget (dset d k v) k2 = dget d k2 := by
  induction d with
  | nil => simp [dget, dset, hne]
  | cons p rest ih =>
    by_cases h : p.1 = k
    · simp [dget, dset, h, hne]
    · by_cases h2 : p.1 = k2 <;> simp [dget, dset, h, h2, ih, Ne.symm hne]

lemma dset_of_dget_none (d : List (α × β)) (k : α) (v : β)
    (h : dget d k = Option.none) : dset d k v = d ++ [(k, v)] := by
  induction d with
  | nil => simp [dset]
  | cons p rest ih =>
    by_cases hp : p.1 = k
    · simp [dget, hp] at h
    · simp [dget, hp] at h
      simp [dset, hp, ih h]

lemma dget_isSome_of_mem (d : List (α × β)) (p : α × β) (h : p ∈ d) :
    (dget d p.1).isSome = true := by
  induction d with
  | nil => cases h
  | cons q rest ih =>
    rcases List.mem_cons.mp h with rfl | h2
    · simp [dget]
    · by_cases hq : q.1 = p.1 <;> simp [dget, hq, ih h2]

lemma dget_append_right (d1 d2 : List (α × β)) (k : α)
    (h : dget d1 k = Option.none) : dget (d1 ++ d2) k = dget d2 k := by
  induction d1 with
  | nil => simp
  | cons p rest ih =>
    by_cases hp : p.1 = k
    · simp [dget, hp] at h
    · simp [dget, hp] at h ⊢
      exact ih h

lemma filter_dget_self_eq_nil (d : List (α × β)) :
    d.filter (fun p => (dget d p.1).isNone) = [] := by
  rw [List.filter_eq_nil_iff]
  intro p hp
  simp [Option.isNone_iff_eq_none]
  intro h
  have := dget_isSome_of_mem d p hp
  rw [h] at this
  cases this

end DictLemmas

/-! ## String-order lemmas for the checkpoint listing -/

lemma charsLe_refl : ∀ l : List Char, charsLe l l = true
  | [] => rfl
  | a :: as => by simp [charsLe, charsLe_refl as]

lemma charsLe_total : ∀ a b : List Char, charsLe a b = true ∨ charsLe b a = true
  | [], _ => Or.inl rfl
  | _ :: _, [] => Or.inr rfl
  | a :: as, b :: bs => by
    rcases Nat.lt_trichotomy a.toNat b.toNat with h | h | h
    · left
      simp [charsLe, h]
    · have := charsLe_total as bs
      simpa [charsLe, h] using this
    · right
      simp [charsLe, h]

lemma charsLe_trans :
    ∀ a b c : List Char, charsLe a b = true → charsLe b c = true →
      charsLe a c = true
  | [], _, _, _, _ => rfl
  | _ :: _, [], _, h, _ => by simp [charsLe] at h
  | _ :: _, _ :: _, [], _, h => by simp [charsLe] at h
  | a :: as, b :: bs, c :: cs, h1, h2 => by
    simp only [charsLe] at h1 h2 ⊢
    split_ifs at h1 h2 ⊢ with hab1 hab2 hbc1 hbc2 hac1 hac2 <;>
      first
      | rfl
      | omega
      | exact charsLe_trans as bs cs h1 h2

instance : IsRefl String pyStrLeP := ⟨fun s => charsLe_refl s.data⟩

instance : IsTotal String pyStrLeP := ⟨fun s t => charsLe_total s.data t.data⟩

instance : IsTrans String pyStrLeP :=
  ⟨fun s t u h1 h2 => charsLe_trans s.data t.data u.data h1 h2⟩

/-- The last element of a list sorted ascending under `pyStrLeP` is a
maximum of the list. -/
lemma sorted_getLast?_max :
    ∀ {l : List String}, List.Sorted pyStrLeP l → ∀ {m : String},
      l.getLast? = some m → m ∈ l ∧ ∀ x ∈ l, pyStrLeP x m := by
  intro l
  induction l with
  | nil => intro _ m hm; cases hm
  | cons a t ih =>
    intro h m hm
    cases t with
    | nil =>
      simp only [List.getLast?_singleton, Option.some.injEq] at hm
      rcases hm with rfl
      constructor
      · simp
      · intro x hx
        rw [List.mem_singleton] at hx
        subst hx
        exact charsLe_refl _
    | cons b t2 =>
      rw [List.getLast?_cons_cons] at hm
      have hs := List.sorted_cons.mp h
      obtain ⟨hma, hall⟩ := ih hs.2 hm
      refine ⟨List.mem_cons_of_mem _ hma, ?_⟩
      intro x hx
      rcases List.mem_cons.mp hx with rfl | hx2
      · exact hs.1 m hma
      · exact hall x hx2

/-! ## Claim C8 -/

/-- Claim C8 counterexample: for a directory "ckpts" containing the three
checkpoint files of the claim, `get_latest_checkpoint` does select the
lexicographically-last file name "epoch-0010.ckpt", but it returns
`os.path.join(dir, name)` — the string "ckpts/epoch-0010.ckpt" — not the
bare file name the claim states. -/
theorem get_latest_checkpoint_returns_joined_path :
    get_latest_checkpoint
        ⟨[("ckpts", ["epoch-0001.ckpt", "epoch-0010.ckpt", "epoch-0002.ckpt"])], []⟩
        "ckpts" = some "ckpts/epoch-0010.ckpt" ∧
    get_latest_checkpoint
        ⟨[("ckpts", ["epoch-0001.ckpt", "epoch-0010.ckpt", "epoch-0002.ckpt"])], []⟩
        "ckpts" ≠ some "epoch-0010.ckpt" := by
  decide

/-- Claim C8 as amended: `get_latest_checkpoint(dir)` returns `None` when
the directory is absent or its listing is empty, and otherwise returns
the path obtained by joining `dir` with the lexicographically-last file
name of the listing (Python code-point string order). -/
theorem get_latest_checkpoint_amended (fs : FS) (d : String) :
    (dget fs.dirs d = Option.none → get_latest_checkpoint fs d = Option.none) ∧
    (dget fs.dirs d = some [] → get_latest_checkpoint fs d = Option.none) ∧
    (∀ items, dget fs.dirs d = some items → items ≠ [] →
      ∃ m, m ∈ items ∧ (∀ x ∈ items, pyStrLeP x m) ∧
        get_latest_checkpoint fs d = some (joinPath d m)) := by
  refine ⟨?_, ?_, ?_⟩
  · intro h
    simp [get_latest_checkpoint, h]
  · intro h
    simp [get_latest_checkpoint, h, List.insertionSort]
  · intro items hlook hne
    have hperm := List.perm_insertionSort pyStrLeP items
    have hsorted := List.sorted_insertionSort pyStrLeP items
    have hne2 : List.insertionSort pyStrLeP items ≠ [] := by
      intro h0
      exact hne (List.Perm.eq_nil (h0 ▸ hperm.symm))
    obtain ⟨m, hm⟩ := Option.ne_none_iff_exists.mp
      (mt List.getLast?_eq_none_iff.mp hne2)
    obtain ⟨hmem, hmax⟩ := sorted_getLast?_max hsorted hm.symm
    refine ⟨m, hperm.subset hmem, ?_, ?_⟩
    · intro x hx
      exact hmax x (hperm.mem_iff.mpr hx)
    · simp [get_latest_checkpoint, hlook, hm.symm]

/-- Claim C8 amended-theorem witness: on the claim's three-file directory
the returned path joins "ckpts" with the maximal name "epoch-0010.ckpt". -/
theorem get_latest_checkpoint_amended_witness :
    get_latest_checkpoint
        ⟨[("ckpts", ["epoch-0001.ckpt", "epoch-0010.ckpt", "epoch-0002.ckpt"])], []⟩
        "ckpts" = some (joinPath "ckpts" "epoch-0010.ckpt") := by
  obtain ⟨m, hm, hmax, hres⟩ :=
    (get_latest_checkpoint_amended
      ⟨[("ckpts", ["epoch-0001.ckpt", "epoch-0010.ckpt", "epoch-0002.ckpt"])], []⟩
      "ckpts").2.2
      ["epoch-0001.ckpt", "epoch-0010.ckpt", "epoch-0002.ckpt"] rfl (by decide)
  rw [hres]
  simp only [List.mem_cons, List.not_mem_nil, or_false] at hm
  rcases hm with rfl | rfl | rfl
  · exact absurd (hmax "epoch-0010.ckpt" (by decide)) (by decide)
  · rfl
  · exact absurd (hmax "epoch-0010.ckpt" (by decide)) (by decide)

/-! ## Claim C10 -/

/-- Claim C10: `save` mutates the caller-owned state mapping in place,
inserting or overwriting the keys "global_step" and "current_epoch" with
the trainer's current counters (the mutation is the first component of
`trainerSave`, the mapping the caller keeps holding), and every other
entry of the mapping is left unchanged. -/
theorem save_mutates_state_in_place (tr : TrainerS) (fs : FS) (state : Record) :
    dget (trainerSave tr fs (some state)).1 "global_step" =
      some (.num tr.global_step) ∧
    dget (trainerSave tr fs (some state)).1 "current_epoch" =
      some (.num tr.current_epoch) ∧
    ∀ k : String, k ≠ "global_step" → k ≠ "current_epoch" →
      dget (trainerSave tr fs (some state)).1 k = dget state k := by
  refine ⟨?_, ?_, ?_⟩
  · show dget (dset (dset state "global_step" _) "current_epoch" _) "global_step" = _
    rw [dget_dset_ne _ _ _ _ (by decide), dget_dset_self]
  · exact dget_dset_self _ _ _
  · intro k hk1 hk2
    show dget (dset (dset state "global_step" _) "current_epoch" _) k = _
    rw [dget_dset_ne _ _ _ _ (Ne.symm hk2), dget_dset_ne _ _ _ _ (Ne.symm hk1)]

/-- Claim C10 witness: a concrete save on a trainer with counters 7 and 5
over a mapping holding a "model" entry. -/
theorem save_mutates_state_in_place_witness :
    dget (trainerSave ⟨7, 5, false, "ckpts", Option.none⟩ ⟨[], []⟩
        (some [("model", .obj 1)])).1 "global_step" = some (.num 7) ∧
    dget (trainerSave ⟨7, 5, false, "ckpts", Option.none⟩ ⟨[], []⟩
        (some [("model", .obj 1)])).1 "current_epoch" = some (.num 5) ∧
    dget (trainerSave ⟨7, 5, false, "ckpts", Option.none⟩ ⟨[], []⟩
        (some [("model", .obj 1)])).1 "model" = dget [("model", CkptVal.obj 1)] "model" :=
  ⟨(save_mutates_state_in_place ⟨7, 5, false, "ckpts", Option.none⟩ ⟨[], []⟩
      [("model", .obj 1)]).1,
   (save_mutates_state_in_place ⟨7, 5, false, "ckpts", Option.none⟩ ⟨[], []⟩
      [("model", .obj 1)]).2.1,
   (save_mutates_state_in_place ⟨7, 5, false, "ckpts", Option.none⟩ ⟨[], []⟩
      [("model", .obj 1)]).2.2 "model" (by decide) (by decide)⟩

/-! ## Claim C7 -/

/-- Claim C7: saving the engine state and loading the produced checkpoint
into a fresh trainer reproduces the saved `global_step` and
`current_epoch`; and when the persisted record carries any extra key
beyond the state components and the two counters, `load` fails with the
fatal `RuntimeError` listing the unused entry instead of completing. -/
theorem checkpoint_roundtrip (tr fresh : TrainerS) (fs : FS) (comps : Record)
    (hgs : dget comps "global_step" = Option.none)
    (hce : dget comps "current_epoch" = Option.none) :
    (∃ restored,
      trainerLoad fresh (trainerSave tr fs (some comps)).2 (some comps)
          (joinPath tr.checkpoint_dir (ckptFileName tr.current_epoch)) =
        .ok ({ fresh with global_step := tr.global_step, current_epoch := tr.current_epoch },
             restored)) ∧
    (∀ (k : String) (v : CkptVal), dget comps k = Option.none →
      k ≠ "global_step" → k ≠ "current_epoch" →
      ∀ fs2 : FS,
        dget fs2.files (joinPath tr.checkpoint_dir (ckptFileName tr.current_epoch)) =
          some ((trainerSave tr fs (some comps)).1 ++ [(k, v)]) →
        trainerLoad fresh fs2 (some comps)
            (joinPath tr.checkpoint_dir (ckptFileName tr.current_epoch)) =
          .error (.unusedValues [(k, v)])) := by
  have hst : (trainerSave tr fs (some comps)).1 =
      comps ++ [("global_step", CkptVal.num tr.global_step),
                ("current_epoch", CkptVal.num tr.current_epoch)] := by
    have h1 : dset comps "global_step" (CkptVal.num tr.global_step) =
        comps ++ [("global_step", CkptVal.num tr.global_step)] :=
      dset_of_dget_none _ _ _ hgs
    have h2 : dget (comps ++ [("global_step", CkptVal.num tr.global_step)])
        "current_epoch" = Option.none := by
      rw [dget_append_right _ _ _ hce]
      simp [dget]
    show dset (dset comps "global_step" (CkptVal.num tr.global_step))
        "current_epoch" (CkptVal.num tr.current_epoch) = _
    rw [h1, dset_of_dget_none _ _ _ h2, List.append_assoc]
    rfl
  have hremainder : ∀ tail : Record,
      (∀ p ∈ tail, (dget comps p.1).isNone = true) →
      (comps ++ tail).filter (fun p => (dget comps p.1).isNone) = tail := by
    intro tail htail
    rw [List.filter_append, filter_dget_self_eq_nil, List.nil_append]
    exact List.filter_eq_self.mpr htail
  constructor
  · have hfile : dget ((trainerSave tr fs (some comps)).2).files
        (joinPath tr.checkpoint_dir (ckptFileName tr.current_epoch)) =
        some ((trainerSave tr fs (some comps)).1) := dget_dset_self _ _ _
    rw [hst] at hfile
    have htail : ∀ p ∈ [("global_step", CkptVal.num tr.global_step),
        ("current_epoch", CkptVal.num tr.current_epoch)],
        (dget comps p.1).isNone = true := by
      intro p hp
      rcases List.mem_cons.mp hp with rfl | hp2
      · simp [hgs]
      · rcases List.mem_singleton.mp hp2 with rfl
        simp [hce]
    refine ⟨comps.map (fun p => (p.1,
      (dget (comps ++ [("global_step", CkptVal.num tr.global_step),
        ("current_epoch", CkptVal.num tr.current_epoch)]) p.1).getD p.2)), ?_⟩
    simp only [trainerLoad, fabricLoad, Option.getD_some, hfile]
    rw [hremainder _ htail]
    simp [dget, dremove]
  · intro k v hk hk1 hk2 fs2 hfile2
    rw [hst, List.append_assoc] at hfile2
    have htail : ∀ p ∈ [("global_step", CkptVal.num tr.global_step),
        ("current_epoch", CkptVal.num tr.current_epoch)] ++ [(k, v)],
        (dget comps p.1).isNone = true := by
      intro p hp
      rcases List.mem_cons.mp hp with rfl | hp2
      · simp [hgs]
      · rcases List.mem_cons.mp hp2 with rfl | hp3
        · simp [hce]
        · rcases List.mem_singleton.mp hp3 with rfl
          simp [hk]
    simp only [trainerLoad, fabricLoad, Option.getD_some, hfile2]
    rw [hremainder _ htail]
    simp [dget, dremove]

/-- Claim C7 witness: a trainer with counters 7 and 5 saves the state
mapping with components model/optim/scheduler; a fresh trainer loading
the produced checkpoint ends with counters 7 and 5, and loading a copy of
that record injected with an extra "extra" key fails with the
unused-values error. -/
theorem checkpoint_roundtrip_witness :
    (∃ restored,
      trainerLoad ⟨0, 0, false, "elsewhere", Option.none⟩
          (trainerSave ⟨7, 5, false, "ckpts", Option.none⟩ ⟨[], []⟩
            (some [("model", CkptVal.obj 1), ("optim", CkptVal.obj 2),
                   ("scheduler", CkptVal.obj 3)])).2
          (some [("model", CkptVal.obj 1), ("optim", CkptVal.obj 2),
                 ("scheduler", CkptVal.obj 3)])
          (joinPath "ckpts" (ckptFileName 5)) =
        .ok (⟨7, 5, false, "elsewhere", Option.none⟩, restored)) ∧
    trainerLoad ⟨0, 0, false, "elsewhere", Option.none⟩
        ⟨[], [(joinPath "ckpts" (ckptFileName 5),
              (trainerSave ⟨7, 5, false, "ckpts", Option.none⟩ ⟨[], []⟩
                (some [("model", CkptVal.obj 1), ("optim", CkptVal.obj 2),
                       ("scheduler", CkptVal.obj 3)])).1 ++
              [("extra", CkptVal.num 9)])]⟩
        (some [("model", CkptVal.obj 1), ("optim", CkptVal.obj 2),
               ("scheduler", CkptVal.obj 3)])
        (joinPath "ckpts" (ckptFileName 5)) =
      .error (.unusedValues [("extra", CkptVal.num 9)]) :=
  ⟨(checkpoint_roundtrip ⟨7, 5, false, "ckpts", Option.none⟩
      ⟨0, 0, false, "elsewhere", Option.none⟩ ⟨[], []⟩
      [("model", CkptVal.obj 1), ("optim", CkptVal.obj 2),
       ("scheduler", CkptVal.obj 3)] rfl rfl).1,
   (checkpoint_roundtrip ⟨7, 5, false, "ckpts", Option.none⟩
      ⟨0, 0, false, "elsewhere", Option.none⟩ ⟨[], []⟩
      [("model", CkptVal.obj 1), ("optim", CkptVal.obj 2),
       ("scheduler", CkptVal.obj 3)] rfl rfl).2 "extra" (CkptVal.num 9) rfl
     (by decide) (by decide)
     ⟨[], [(joinPath "ckpts" (ckptFileName 5),
           (trainerSave ⟨7, 5, false, "ckpts", Option.none⟩ ⟨[], []⟩
             (some [("model", CkptVal.obj 1), ("optim", CkptVal.obj 2),
                    ("scheduler", CkptVal.obj 3)])).1 ++
           [("extra", CkptVal.num 9)])]⟩ (by decide)⟩

/-! ## Claim C9 -/

/-- Claim C9: at fit start the supplied checkpoint directory "a" exists
and contains a checkpoint recording epoch 5, yet with the trainer
configured for `checkpoint_dir = "b"` the resume phase looks for the
latest checkpoint in "b" (the source passes `self.checkpoint_dir`, not
`ckpt_path`, to `get_latest_checkpoint`), finds nothing, and trains from
scratch for one full epoch — the checkpoint in the supplied directory is
never loaded.  Only when the configured directory coincides with the
supplied one ("a") is the checkpoint loaded, and then the restored epoch
5 meets `max_epochs = 1`, so zero training epochs run and the trainer
goes directly to the done state (stop flag reset). -/
theorem fit_resume_consults_configured_directory :
    (fit fitParamsResume 2 trainerDirB fsResume compsResume (some "a") true).map
        (fun r => (r.epochs_run, r.tr.global_step, r.tr.current_epoch)) =
      .ok (1, 1, 1) ∧
    (fit fitParamsResume 2 trainerDirA fsResume compsResume (some "a") true).map
        (fun r => (r.epochs_run, r.tr.global_step, r.tr.current_epoch, r.tr.should_stop)) =
      .ok (0, 7, 5, false) :=
  ⟨rfl, rfl⟩

end NEAT
